import Mathlib

/-!
# Verification of `fsspec/dircache.py` (directory-listings cache)

Shallow embedding of the listings-cache module: the disabled backend
(`DisabledListingsCache`), the in-memory backend (`MemoryListingsCache`,
whose recency tracking is implemented in the source through
`functools.lru_cache(max_paths + 1)` wrapping `self._cache.pop`), the
persistent backend (`FileListingsCache` over the external `diskcache`
store), and the factory `create_listings_cache`.

Python `dict`s are embedded as association lists with insertion-order
semantics (overwrite in place, append new keys at the end); `time.time()`
becomes an explicit integer argument to each operation; a raised
`KeyError` becomes `Except.error CErr.keyError`.
-/

set_option autoImplicit false

namespace Dircache

/-- Errors the embedded operations can raise.  Python `KeyError` (which the
spec calls NotFound when raised by `get`/`delete`, and which is also what a
failed `dict` lookup in the factory raises). -/
inductive CErr where
  | keyError
deriving DecidableEq

/-! ## Association-list model of Python `dict` -/

variable {K V : Type} [DecidableEq K]

/-- `d.get(k)` / `d[k]` lookup: first (and only) binding of `k`. -/
def alookup : List (K × V) → K → Option V
  | [], _ => none
  | p :: t, k => if p.1 = k then some p.2 else alookup t k

/-- `del d[k]` / `d.pop(k, None)`: remove the binding of `k` (keys are
unique, so removing every binding of `k` is the same operation). -/
def aerase (l : List (K × V)) (k : K) : List (K × V) :=
  l.filter (fun p => decide (p.1 ≠ k))

/-- `d[k] = v`: overwrite in place if present, else append at the end
(Python 3.7+ `dict` insertion-order semantics). -/
def ainsert (l : List (K × V)) (k : K) (v : V) : List (K × V) :=
  if (alookup l k).isSome then
    l.map (fun p => if p.1 = k then (k, v) else p)
  else
    l ++ [(k, v)]

/-- Remove a key from the recency tracker's key list. -/
def lremove (l : List K) (k : K) : List K :=
  l.filter (fun x => decide (x ≠ k))

@[simp] theorem alookup_nil (k : K) : alookup ([] : List (K × V)) k = none := rfl

@[simp] theorem alookup_cons (p : K × V) (t : List (K × V)) (k : K) :
    alookup (p :: t) k = if p.1 = k then some p.2 else alookup t k := rfl

@[simp] theorem aerase_nil (k : K) : aerase ([] : List (K × V)) k = [] := rfl

theorem aerase_cons (p : K × V) (t : List (K × V)) (k : K) :
    aerase (p :: t) k = if p.1 = k then aerase t k else p :: aerase t k := by
  by_cases hp : p.1 = k <;> simp [aerase, List.filter, hp]

theorem alookup_append_of_none (l₁ l₂ : List (K × V)) (k : K)
    (h : alookup l₁ k = none) : alookup (l₁ ++ l₂) k = alookup l₂ k := by
  induction l₁ with
  | nil => rfl
  | cons p t ih =>
      by_cases hp : p.1 = k
      · simp [hp] at h
      · simp only [alookup_cons, hp, if_false] at h
        simp [hp, ih h]

theorem alookup_append_of_some (l₁ l₂ : List (K × V)) (k : K) (v : V)
    (h : alookup l₁ k = some v) : alookup (l₁ ++ l₂) k = some v := by
  induction l₁ with
  | nil => simp at h
  | cons p t ih =>
      by_cases hp : p.1 = k
      · simp only [alookup_cons, hp, if_true] at h
        simp [hp, h]
      · simp only [alookup_cons, hp, if_false] at h
        simp [hp, ih h]

theorem alookup_none_of_not_isSome (l : List (K × V)) (k : K)
    (h : ¬ (alookup l k).isSome) : alookup l k = none := by
  cases hl : alookup l k with
  | none => rfl
  | some v => rw [hl] at h; simp at h

theorem alookup_mapReplace_self (l : List (K × V)) (k : K) (v : V)
    (h : (alookup l k).isSome) :
    alookup (l.map (fun p => if p.1 = k then (k, v) else p)) k = some v := by
  induction l with
  | nil => simp at h
  | cons p t ih =>
      by_cases hp : p.1 = k
      · simp [hp]
      · simp only [alookup_cons, hp, if_false] at h
        simp [hp, ih h]

theorem alookup_mapReplace_ne (l : List (K × V)) (k k' : K) (v : V)
    (h : k ≠ k') :
    alookup (l.map (fun p => if p.1 = k then (k, v) else p)) k' = alookup l k'
    := by
  induction l with
  | nil => rfl
  | cons p t ih =>
      by_cases hp : p.1 = k
      · rw [List.map_cons, if_pos hp]
        have hp' : ¬ p.1 = k' := by rw [hp]; exact h
        simp [h, hp', ih]
      · rw [List.map_cons, if_neg hp]
        by_cases hp' : p.1 = k'
        · simp [hp', ih]
        · simp [hp', ih]

@[simp] theorem alookup_ainsert_ne (l : List (K × V)) (k k' : K) (v : V)
    (h : k ≠ k') : alookup (ainsert l k v) k' = alookup l k' := by
  by_cases hs : (alookup l k).isSome
  · rw [ainsert, if_pos hs]
    exact alookup_mapReplace_ne l k k' v h
  · rw [ainsert, if_neg hs]
    cases hl : alookup l k' with
    | none =>
        rw [alookup_append_of_none _ _ _ hl]
        simp [h]
    | some v' => rw [alookup_append_of_some _ _ _ _ hl]

@[simp] theorem alookup_ainsert_self (l : List (K × V)) (k : K) (v : V) :
    alookup (ainsert l k v) k = some v := by
  by_cases h : (alookup l k).isSome
  · rw [ainsert, if_pos h]
    exact alookup_mapReplace_self l k v h
  · rw [ainsert, if_neg h]
    rw [alookup_append_of_none _ _ _ (alookup_none_of_not_isSome _ _ h)]
    simp

@[simp] theorem alookup_aerase_self (l : List (K × V)) (k : K) :
    alookup (aerase l k) k = none := by
  induction l with
  | nil => rfl
  | cons p t ih =>
      rw [aerase_cons]
      by_cases hp : p.1 = k
      · rw [if_pos hp]; exact ih
      · rw [if_neg hp]; simp [hp, ih]

@[simp] theorem alookup_aerase_ne (l : List (K × V)) (k k' : K) (h : k ≠ k') :
    alookup (aerase l k) k' = alookup l k' := by
  induction l with
  | nil => rfl
  | cons p t ih =>
      rw [aerase_cons]
      by_cases hp : p.1 = k
      · rw [if_pos hp]
        have hp' : ¬ p.1 = k' := by rw [hp]; exact h
        simp [hp', ih]
      · rw [if_neg hp]
        simp [alookup_cons, ih]

theorem aerase_of_not_mem (l : List (K × V)) (k : K)
    (h : alookup l k = none) : aerase l k = l := by
  induction l with
  | nil => rfl
  | cons p t ih =>
      rw [aerase_cons]
      by_cases hp : p.1 = k
      · simp [hp] at h
      · rw [if_neg hp]
        simp only [alookup_cons, hp, if_false] at h
        rw [ih h]

/-! ## `MemoryListingsCache` -/

/-- State of `MemoryListingsCache`.  `tracker` embeds the memoization
dictionary of `self._q = lru_cache(max_paths + 1)(lambda key:
self._cache.pop(key, None))`: the list of keys currently memoized, most
recently used first.  (The memoized return values are never read by the
source, so only the keys are kept.) -/
@[ext]
structure MemoryListingsCache (K V : Type) where
  cache : List (K × V)
  times : List (K × Int)
  expiry_time : Option Int
  max_paths : Option Nat
  tracker : List K

namespace MemoryListingsCache

/-- Fresh cache, as built by `__init__(expiry_time, max_paths)`. -/
def init (expiry_time : Option Int) (max_paths : Option Nat) :
    MemoryListingsCache K V :=
  { cache := [], times := [], expiry_time := expiry_time,
    max_paths := max_paths, tracker := [] }

/-- Python truthiness of `self._max_paths` (`if self._max_paths:`):
`None` and `0` are falsy. -/
def hasMax (s : MemoryListingsCache K V) : Bool :=
  match s.max_paths with
  | none => false
  | some m => decide (m ≠ 0)

/-- One call `self._q(key)` on the `lru_cache(max_paths + 1)` wrapper of
`lambda key: self._cache.pop(key, None)`.
On a memoization hit the key just moves to most-recent and the wrapped
function is not called; on a miss the wrapped function runs (popping `key`
from `self._cache`), the key is memoized most-recent, and if the memo
table now exceeds `max_paths + 1` entries its least-recent key is silently
discarded (without touching `self._cache`). -/
def qTouch (s : MemoryListingsCache K V) (k : K) : MemoryListingsCache K V :=
  match s.max_paths with
  | none => s
  | some m =>
      if k ∈ s.tracker then
        { s with tracker := k :: lremove s.tracker k }
      else
        let tr := k :: s.tracker
        { s with cache := aerase s.cache k,
                 tracker := if tr.length > m + 1 then tr.dropLast else tr }

/-- Final lookup steps of `__getitem__`: the `self._q(item)` touch (when
`max_paths` is truthy) followed by `return self._cache[item]`. -/
def getCore (s : MemoryListingsCache K V) (k : K) :
    Except CErr V × MemoryListingsCache K V :=
  let s1 := if hasMax s then qTouch s k else s
  match alookup s1.cache k with
  | some v => (.ok v, s1)
  | none => (.error .keyError, s1)

/-- `__getitem__(item)` at wall-clock time `now`.  The expiry test is
`self._times.get(item, 0) - time.time() < -self._expiry_time`; when it
fires, `del self._cache[item]` runs (raising `KeyError` immediately when
`item` is absent, in which case the `self._q` touch is never reached). -/
def getitem (s : MemoryListingsCache K V) (k : K) (now : Int) :
    Except CErr V × MemoryListingsCache K V :=
  match s.expiry_time with
  | some t_exp =>
      if (alookup s.times k).getD 0 - now < -t_exp then
        match alookup s.cache k with
        | some _ => getCore { s with cache := aerase s.cache k } k
        | none => (.error .keyError, s)
      else getCore s k
  | none => getCore s k

/-- `__setitem__(key, value)` at wall-clock time `now`. -/
def setitem (s : MemoryListingsCache K V) (k : K) (v : V) (now : Int) :
    MemoryListingsCache K V :=
  let s1 := if hasMax s then qTouch s k else s
  let s2 := { s1 with cache := ainsert s1.cache k v }
  if s2.expiry_time.isSome then
    { s2 with times := ainsert s2.times k now }
  else s2

/-- `__contains__(item)`: attempt `self[item]`, map `KeyError` to `False`. -/
def containsOp (s : MemoryListingsCache K V) (k : K) (now : Int) :
    Bool × MemoryListingsCache K V :=
  match getitem s k now with
  | (.ok _, s') => (true, s')
  | (.error _, s') => (false, s')

/-- `__delitem__(key)`: `del self._cache[key]` (raises `KeyError` when
absent; `self._times` and the tracker are untouched). -/
def delitem (s : MemoryListingsCache K V) (k : K) :
    Except CErr Unit × MemoryListingsCache K V :=
  match alookup s.cache k with
  | some _ => (.ok (), { s with cache := aerase s.cache k })
  | none => (.error .keyError, s)

/-- `clear()`: `self._cache.clear()` only — `self._times` and the tracker
are untouched. -/
def clearOp (s : MemoryListingsCache K V) : MemoryListingsCache K V :=
  { s with cache := [] }

/-- `__len__`: `len(self._cache)`. -/
def lenOp (s : MemoryListingsCache K V) : Nat := s.cache.length

/-- `__reduce__`: the reconstruction configuration
`(self._expiry_time, self._max_paths)`. -/
def reduceConfig (s : MemoryListingsCache K V) : Option Int × Option Nat :=
  (s.expiry_time, s.max_paths)

/-- The source's expiry test for key `k` at time `now`:
`self._times.get(item, 0) - time.time() < -self._expiry_time`
(never true when no expiry duration is configured). -/
def isExpired (s : MemoryListingsCache K V) (k : K) (now : Int) : Bool :=
  match s.expiry_time with
  | none => false
  | some t_exp => decide ((alookup s.times k).getD 0 - now < -t_exp)

/-- Keys of the value store. -/
def cacheKeys (s : MemoryListingsCache K V) : List K := s.cache.map Prod.fst

/-- Keys of the timestamp store. -/
def timesKeys (s : MemoryListingsCache K V) : List K := s.times.map Prod.fst

/-- The number of live (non-expired) entries in the value store — the
quantity the specification's capacity invariant is stated about. -/
def liveEntryCount (s : MemoryListingsCache K V) (now : Int) : Nat :=
  (s.cache.filter (fun p => !isExpired s p.1 now)).length

/-- The number of entries of the value store that are non-expired and
still present in the recency tracker — exactly the entries a `get` or
`contains` can still succeed on when `max_paths` is active. -/
def retrievableCount (s : MemoryListingsCache K V) (now : Int) : Nat :=
  (s.cache.filter
      (fun p => decide (p.1 ∈ s.tracker) && !isExpired s p.1 now)).length

end MemoryListingsCache

/-- One client-visible operation on the memory backend, with the
wall-clock time at which it runs. -/
inductive Op (K V : Type) where
  | set (k : K) (v : V) (t : Int)
  | get (k : K) (t : Int)
  | contains (k : K) (t : Int)
  | del (k : K)
  | clear

/-- Apply one operation, discarding its result. -/
def applyOp (s : MemoryListingsCache K V) : Op K V → MemoryListingsCache K V
  | .set k v t => s.setitem k v t
  | .get k t => (s.getitem k t).2
  | .contains k t => (s.containsOp k t).2
  | .del k => (s.delitem k).2
  | .clear => s.clearOp

/-- Run a sequence of operations, discarding results. -/
def runOps (s : MemoryListingsCache K V) : List (Op K V) → MemoryListingsCache K V
  | [] => s
  | op :: rest => runOps (applyOp s op) rest

/-! ### Structural lemmas about the memory-backend operations -/

namespace MemoryListingsCache

variable {K V : Type} [DecidableEq K]

theorem qTouch_expiry (s : MemoryListingsCache K V) (k : K) :
    (qTouch s k).expiry_time = s.expiry_time := by
  unfold qTouch
  cases s.max_paths with
  | none => rfl
  | some m => dsimp; split <;> rfl

theorem qTouch_max (s : MemoryListingsCache K V) (k : K) :
    (qTouch s k).max_paths = s.max_paths := by
  unfold qTouch
  cases hm : s.max_paths with
  | none => exact hm
  | some m => dsimp; split <;> rfl

theorem qTouch_times (s : MemoryListingsCache K V) (k : K) :
    (qTouch s k).times = s.times := by
  unfold qTouch
  cases s.max_paths with
  | none => rfl
  | some m => dsimp; split <;> rfl

theorem qTouch_cache_of_mem (s : MemoryListingsCache K V) (k : K)
    (h : k ∈ s.tracker) : (qTouch s k).cache = s.cache := by
  unfold qTouch
  cases s.max_paths with
  | none => rfl
  | some m => dsimp; rw [if_pos h]

theorem qTouch_cache_of_not_mem (s : MemoryListingsCache K V) (k : K) (m : Nat)
    (hm : s.max_paths = some m) (h : k ∉ s.tracker) :
    (qTouch s k).cache = aerase s.cache k := by
  unfold qTouch
  rw [hm]
  dsimp
  rw [if_neg h]

theorem qTouch_tracker_of_mem (s : MemoryListingsCache K V) (k : K) (m : Nat)
    (hm : s.max_paths = some m) (h : k ∈ s.tracker) :
    (qTouch s k).tracker = k :: lremove s.tracker k := by
  unfold qTouch
  rw [hm]
  dsimp
  rw [if_pos h]

theorem qTouch_tracker_of_not_mem (s : MemoryListingsCache K V) (k : K) (m : Nat)
    (hm : s.max_paths = some m) (h : k ∉ s.tracker) :
    (qTouch s k).tracker =
      (if (k :: s.tracker).length > m + 1 then (k :: s.tracker).dropLast
       else k :: s.tracker) := by
  unfold qTouch
  rw [hm]
  dsimp
  rw [if_neg h]

theorem hasMax_of_some (s : MemoryListingsCache K V) (m : Nat)
    (hm : s.max_paths = some m) (h : m ≠ 0) : hasMax s = true := by
  unfold hasMax
  rw [hm]
  simp [h]

theorem hasMax_qTouch (s : MemoryListingsCache K V) (k : K) :
    hasMax (qTouch s k) = hasMax s := by
  unfold hasMax
  rw [qTouch_max]

theorem hasMax_none (s : MemoryListingsCache K V)
    (hm : s.max_paths = none) : hasMax s = false := by
  unfold hasMax
  rw [hm]

/-- After `__setitem__`, the key is always the tracker's most recent entry
when `max_paths` is active (with `max_paths = m ≠ 0`, the capacity
`m + 1 ≥ 2` means the fresh head is never the entry dropped on overflow). -/
theorem mem_tracker_qTouch (s : MemoryListingsCache K V) (k : K) (m : Nat)
    (hm : s.max_paths = some m) : k ∈ (qTouch s k).tracker := by
  by_cases h : k ∈ s.tracker
  · rw [qTouch_tracker_of_mem s k m hm h]
    exact List.mem_cons_self _ _
  · rw [qTouch_tracker_of_not_mem s k m hm h]
    split
    · rename_i hlen
      cases ht : s.tracker with
      | nil =>
          rw [ht] at hlen
          simp only [List.length_cons, List.length_nil] at hlen
          omega
      | cons a t =>
          have hdl : (k :: a :: t).dropLast = k :: (a :: t).dropLast := rfl
          rw [hdl]
          exact List.mem_cons_self _ _
    · exact List.mem_cons_self _ _

theorem touch_expiry (s : MemoryListingsCache K V) (k : K) :
    (if hasMax s then qTouch s k else s).expiry_time = s.expiry_time := by
  split
  · exact qTouch_expiry s k
  · rfl

theorem touch_max (s : MemoryListingsCache K V) (k : K) :
    (if hasMax s then qTouch s k else s).max_paths = s.max_paths := by
  split
  · exact qTouch_max s k
  · rfl

theorem touch_times (s : MemoryListingsCache K V) (k : K) :
    (if hasMax s then qTouch s k else s).times = s.times := by
  split
  · exact qTouch_times s k
  · rfl

theorem setitem_expiry (s : MemoryListingsCache K V) (k : K) (v : V) (now : Int) :
    (setitem s k v now).expiry_time = s.expiry_time := by
  unfold setitem
  dsimp
  rw [touch_expiry]
  split <;> rfl

theorem setitem_max (s : MemoryListingsCache K V) (k : K) (v : V) (now : Int) :
    (setitem s k v now).max_paths = s.max_paths := by
  unfold setitem
  dsimp
  rw [touch_expiry, touch_max]
  split <;> rfl

theorem setitem_cache (s : MemoryListingsCache K V) (k : K) (v : V) (now : Int) :
    (setitem s k v now).cache =
      ainsert (if hasMax s then qTouch s k else s).cache k v := by
  unfold setitem
  dsimp
  rw [touch_expiry]
  split <;> rfl

theorem setitem_tracker (s : MemoryListingsCache K V) (k : K) (v : V) (now : Int) :
    (setitem s k v now).tracker =
      (if hasMax s then qTouch s k else s).tracker := by
  unfold setitem
  dsimp
  rw [touch_expiry]
  split <;> rfl

theorem setitem_times_of_isSome (s : MemoryListingsCache K V) (k : K) (v : V)
    (now : Int) (h : s.expiry_time.isSome) :
    (setitem s k v now).times = ainsert s.times k now := by
  unfold setitem
  dsimp
  rw [touch_expiry, touch_times, if_pos h]

theorem setitem_times_of_none (s : MemoryListingsCache K V) (k : K) (v : V)
    (now : Int) (h : s.expiry_time = none) :
    (setitem s k v now).times = s.times := by
  unfold setitem
  dsimp
  rw [touch_expiry, touch_times, h]
  rfl

theorem mem_tracker_setitem (s : MemoryListingsCache K V) (k : K) (v : V)
    (now : Int) (m : Nat) (hm : s.max_paths = some m) (h : m ≠ 0) :
    k ∈ (setitem s k v now).tracker := by
  rw [setitem_tracker, if_pos (hasMax_of_some s m hm h)]
  exact mem_tracker_qTouch s k m hm

theorem hasMax_exists (s : MemoryListingsCache K V) (h : hasMax s = true) :
    ∃ m, s.max_paths = some m ∧ m ≠ 0 := by
  unfold hasMax at h
  cases hm : s.max_paths with
  | none => rw [hm] at h; simp at h
  | some m =>
      rw [hm] at h
      simp only [decide_eq_true_eq] at h
      exact ⟨m, rfl, h⟩

theorem getCore_fst_of_tracker (s : MemoryListingsCache K V) (k : K)
    (h : hasMax s = true → k ∈ s.tracker) :
    (getCore s k).1 = (match alookup s.cache k with
      | some v => Except.ok v
      | none => Except.error CErr.keyError) := by
  unfold getCore
  dsimp
  have hc : (if hasMax s then qTouch s k else s).cache = s.cache := by
    by_cases hx : hasMax s
    · rw [if_pos hx]; exact qTouch_cache_of_mem s k (h hx)
    · rw [if_neg hx]
  rw [hc]
  cases alookup s.cache k <;> rfl

theorem containsOp_fst (s : MemoryListingsCache K V) (k : K) (now : Int) :
    (containsOp s k now).1 =
      (match (getitem s k now).1 with
        | Except.ok _ => true
        | Except.error _ => false) := by
  unfold containsOp
  rcases h : getitem s k now with ⟨r, s2⟩
  cases r <;> rfl

theorem getCore_fst_of_not_mem (s : MemoryListingsCache K V) (k : K) (m : Nat)
    (hm : s.max_paths = some m) (hmx : hasMax s = true) (hk : k ∉ s.tracker) :
    (getCore s k).1 = Except.error CErr.keyError := by
  unfold getCore
  dsimp
  rw [if_pos hmx, qTouch_cache_of_not_mem s k m hm hk, alookup_aerase_self]

end MemoryListingsCache

/-! ## `DisabledListingsCache` -/

/-- `DisabledListingsCache` carries no state (`__init__` is `pass`). -/
structure DisabledListingsCache where
  unit : Unit

namespace DisabledListingsCache

/-- `__init__(*args, **kwargs)`: ignores everything. -/
def init : DisabledListingsCache := ⟨()⟩

/-- `__getitem__`: `raise KeyError`. -/
def getitem (_s : DisabledListingsCache) (_k : K) : Except CErr V :=
  .error .keyError

/-- `__setitem__`: `pass`. -/
def setitem (s : DisabledListingsCache) (_k : K) (_v : V) :
    DisabledListingsCache := s

/-- `__delitem__`: `pass` (never raises). -/
def delitem (s : DisabledListingsCache) (_k : K) : DisabledListingsCache := s

/-- `__iter__`: `iter(())`. -/
def iterOp (_s : DisabledListingsCache) : List K := []

/-- `__len__`: `0`. -/
def lenOp (_s : DisabledListingsCache) : Nat := 0

/-- `clear`: `pass`. -/
def clearOp (s : DisabledListingsCache) : DisabledListingsCache := s

/-- `__contains__`: `False`. -/
def containsOp (_s : DisabledListingsCache) (_k : K) : Bool := false

/-- `__reduce__`: `(DisabledListingsCache, ())`. -/
def reduceConfig (_s : DisabledListingsCache) : Unit := ()

end DisabledListingsCache

/-! ## `FileListingsCache`

The value type of listings is fixed to `List Nat` (opaque serialized
directory entries); keys are strings (paths).  Filesystem paths are lists
of path segments (`pathlib.Path` components), so `Path(d) / "dircache" /
str(expiry_time)` is `d ++ ["dircache", pyStrOptInt expiry_time]`.

The external durable store (`diskcache.Cache`) is not part of this
repository; it is embedded as an environment mapping each store directory
to the association list of its currently live (stored and not yet expired
by the store's own expiry mechanism) entries.  Per its documentation,
`Cache.get(key, default=None, ...)` returns the stored value, or the
default `None` when the key is absent or expired — it does not raise. -/

/-- Python `str(expiry_time)`: `str(None) == "None"`, `str(5) == "5"`. -/
def pyStrOptInt : Option Int → String
  | none => "None"
  | some n => toString n

/-- Directory contents of the durable store: live entries per store
directory.  An entry that the store has expired is absent. -/
def DiskEnv : Type := List String → List (String × List Nat)

/-- State of `FileListingsCache`: its configuration.  The entries
themselves live in the durable store (the `DiskEnv`), keyed by
`directory`. -/
structure FileListingsCache where
  expiry_time : Option Int
  directory : List String

namespace FileListingsCache

/-- `__init__(expiry_time, directory)` (success path: the optional
dependencies import and `mkdir` succeeds).  `if not directory:` replaces a
missing directory by the platform user cache dir, then
`directory = Path(directory) / "dircache" / str(expiry_time)`. -/
def init (expiry_time : Option Int) (directory : Option (List String))
    (userCacheDir : List String) : FileListingsCache :=
  { expiry_time := expiry_time,
    directory := directory.getD userCacheDir ++ ["dircache", pyStrOptInt expiry_time] }

/-- `__getitem__(item)`: `return self._cache.get(key=item, read=True,
retry=True)` — the durable store's `get` returns the stored value or
`None` (here `Option.none`) when the key is absent or already expired;
no exception is raised on a miss. -/
def getitem (env : DiskEnv) (s : FileListingsCache) (k : String) :
    Except CErr (Option (List Nat)) :=
  .ok (alookup (env s.directory) k)

/-- `__contains__(item)`: `value = self._cache.get(item, retry=True)`
then `if value:` — Python truthiness, so a missing key (`None`) and an
empty stored listing both read as `False`. -/
def containsOp (env : DiskEnv) (s : FileListingsCache) (k : String) : Bool :=
  match alookup (env s.directory) k with
  | none => false
  | some v => decide (v ≠ [])

/-- `__len__`: `len(list(self._cache.iterkeys()))`. -/
def lenOp (env : DiskEnv) (s : FileListingsCache) : Nat :=
  (env s.directory).length

/-- `__reduce__`: `(FileListingsCache, (self._expiry_time,
self._directory))`. -/
def reduceConfig (s : FileListingsCache) : Option Int × List String :=
  (s.expiry_time, s.directory)

/-- The reconstruction `__reduce__` requests: call `__init__` again on the
saved configuration. -/
def reconstruct (s : FileListingsCache) (userCacheDir : List String) :
    FileListingsCache :=
  init s.expiry_time (some s.directory) userCacheDir

end FileListingsCache

/-! ## `create_listings_cache` -/

/-- The `CacheType` enum. -/
inductive CacheType where
  | DISABLED
  | MEMORY
  | FILE
deriving DecidableEq

/-- A value passed as the `cache_type` argument: Python is dynamically
typed, so besides the three enum members any other object can arrive; any
such object misses the `cache_map` dict lookup. -/
inductive CacheTypeValue where
  | member (c : CacheType)
  | nonMember (tag : Nat)

/-- The keyword arguments the factory forwards to the constructors. -/
structure FactoryKwargs where
  max_paths : Option Nat
  directory : Option (List String)

/-- A constructed backend instance. -/
inductive Backend where
  | disabled (c : DisabledListingsCache)
  | memory (c : MemoryListingsCache String (List Nat))
  | file (c : FileListingsCache)

/-- `create_listings_cache(cache_type, expiry_time, **kwargs)`:
`cache_map[cache_type](expiry_time, **kwargs)` — the dict lookup raises
`KeyError` when `cache_type` is not one of the three enum members
(the construction-time failure the spec files under ConfigurationError). -/
def create_listings_cache (cache_type : CacheTypeValue)
    (expiry_time : Option Int) (kwargs : FactoryKwargs)
    (userCacheDir : List String) : Except CErr Backend :=
  match cache_type with
  | .member .DISABLED => .ok (.disabled DisabledListingsCache.init)
  | .member .MEMORY =>
      .ok (.memory (MemoryListingsCache.init expiry_time kwargs.max_paths))
  | .member .FILE =>
      .ok (.file (FileListingsCache.init expiry_time kwargs.directory userCacheDir))
  | .nonMember _ => .error .keyError

/-! ## Reduction lemmas for `__getitem__` -/

namespace MemoryListingsCache

variable {K V : Type} [DecidableEq K]

theorem getitem_expiry_some (s : MemoryListingsCache K V) (k : K) (now T : Int)
    (hT : s.expiry_time = some T) :
    getitem s k now =
      (if (alookup s.times k).getD 0 - now < -T then
        match alookup s.cache k with
        | some _ => getCore { s with cache := aerase s.cache k } k
        | none => (Except.error CErr.keyError, s)
      else getCore s k) := by
  unfold getitem
  rw [hT]

theorem getitem_expiry_none (s : MemoryListingsCache K V) (k : K) (now : Int)
    (h : s.expiry_time = none) : getitem s k now = getCore s k := by
  unfold getitem
  rw [h]

theorem getCore_snd (s : MemoryListingsCache K V) (k : K) :
    (getCore s k).2 = (if hasMax s then qTouch s k else s) := by
  unfold getCore
  dsimp
  cases alookup (if hasMax s then qTouch s k else s).cache k <;> rfl

theorem getCore_snd_cache_of_not_mem (s : MemoryListingsCache K V) (k : K)
    (m : Nat) (hm : s.max_paths = some m) (hmx : hasMax s = true)
    (hk : k ∉ s.tracker) : ((getCore s k).2).cache = aerase s.cache k := by
  rw [getCore_snd, if_pos hmx, qTouch_cache_of_not_mem s k m hm hk]

theorem getCore_snd_expiry (s : MemoryListingsCache K V) (k : K) :
    ((getCore s k).2).expiry_time = s.expiry_time := by
  rw [getCore_snd]
  exact touch_expiry s k

theorem getCore_snd_max (s : MemoryListingsCache K V) (k : K) :
    ((getCore s k).2).max_paths = s.max_paths := by
  rw [getCore_snd]
  exact touch_max s k

theorem getCore_snd_times (s : MemoryListingsCache K V) (k : K) :
    ((getCore s k).2).times = s.times := by
  rw [getCore_snd]
  exact touch_times s k

theorem qTouch_cache_cases (s : MemoryListingsCache K V) (k : K) :
    (qTouch s k).cache = s.cache ∨ (qTouch s k).cache = aerase s.cache k := by
  unfold qTouch
  cases s.max_paths with
  | none => exact Or.inl rfl
  | some m =>
      dsimp
      split
      · exact Or.inl rfl
      · exact Or.inr rfl

theorem aerase_isSome_mono (l : List (K × V)) (k x : K)
    (h : (alookup (aerase l k) x).isSome) : (alookup l x).isSome := by
  by_cases hx : k = x
  · subst hx
    rw [alookup_aerase_self] at h
    simp at h
  · rwa [alookup_aerase_ne l k x hx] at h

theorem touch_cache_isSome (s : MemoryListingsCache K V) (k x : K)
    (h : (alookup (if hasMax s then qTouch s k else s).cache x).isSome) :
    (alookup s.cache x).isSome := by
  by_cases hx : hasMax s
  · rw [if_pos hx] at h
    rcases qTouch_cache_cases s k with hc | hc
    · rwa [hc] at h
    · rw [hc] at h
      exact aerase_isSome_mono _ _ _ h
  · rwa [if_neg hx] at h

theorem alookup_ainsert_isSome (l : List (K × V)) (k : K) (v : V) (x : K) :
    (alookup (ainsert l k v) x).isSome ↔ (x = k ∨ (alookup l x).isSome) := by
  by_cases hx : x = k
  · subst hx
    simp
  · rw [alookup_ainsert_ne l k x v (fun hh => hx hh.symm)]
    simp [hx]

theorem getitem_snd_expiry (s : MemoryListingsCache K V) (k : K) (now : Int) :
    ((getitem s k now).2).expiry_time = s.expiry_time := by
  unfold getitem
  cases hE : s.expiry_time with
  | none =>
      rw [getCore_snd_expiry]
      exact hE
  | some T =>
      dsimp
      split
      · cases hc : alookup s.cache k with
        | none => exact hE
        | some v =>
            dsimp
            rw [getCore_snd_expiry]
      · rw [getCore_snd_expiry]
        exact hE

theorem getitem_snd_max (s : MemoryListingsCache K V) (k : K) (now : Int) :
    ((getitem s k now).2).max_paths = s.max_paths := by
  unfold getitem
  cases hE : s.expiry_time with
  | none => rw [getCore_snd_max]
  | some T =>
      dsimp
      split
      · cases hc : alookup s.cache k with
        | none => rfl
        | some v =>
            dsimp
            rw [getCore_snd_max]
      · rw [getCore_snd_max]

theorem getitem_snd_times (s : MemoryListingsCache K V) (k : K) (now : Int) :
    ((getitem s k now).2).times = s.times := by
  unfold getitem
  cases hE : s.expiry_time with
  | none => rw [getCore_snd_times]
  | some T =>
      dsimp
      split
      · cases hc : alookup s.cache k with
        | none => rfl
        | some v =>
            dsimp
            rw [getCore_snd_times]
      · rw [getCore_snd_times]

theorem getitem_snd_cache_isSome (s : MemoryListingsCache K V) (k : K)
    (now : Int) (x : K)
    (h : (alookup ((getitem s k now).2).cache x).isSome) :
    (alookup s.cache x).isSome := by
  rw [getitem] at h
  revert h
  cases hE : s.expiry_time with
  | none =>
      intro h
      rw [getCore_snd] at h
      exact touch_cache_isSome s k x h
  | some T =>
      dsimp
      split
      · cases hc : alookup s.cache k with
        | none => intro h; exact h
        | some v =>
            dsimp
            intro h
            rw [getCore_snd] at h
            have := touch_cache_isSome _ k x h
            exact aerase_isSome_mono _ _ _ this
      · intro h
        rw [getCore_snd] at h
        exact touch_cache_isSome s k x h

theorem containsOp_snd (s : MemoryListingsCache K V) (k : K) (now : Int) :
    (containsOp s k now).2 = (getitem s k now).2 := by
  unfold containsOp
  rcases h : getitem s k now with ⟨r, s'⟩
  cases r <;> rfl

theorem delitem_snd_times (s : MemoryListingsCache K V) (k : K) :
    ((delitem s k).2).times = s.times := by
  unfold delitem
  cases alookup s.cache k <;> rfl

theorem delitem_snd_expiry (s : MemoryListingsCache K V) (k : K) :
    ((delitem s k).2).expiry_time = s.expiry_time := by
  unfold delitem
  cases alookup s.cache k <;> rfl

theorem delitem_snd_max (s : MemoryListingsCache K V) (k : K) :
    ((delitem s k).2).max_paths = s.max_paths := by
  unfold delitem
  cases alookup s.cache k <;> rfl

theorem delitem_snd_cache_isSome (s : MemoryListingsCache K V) (k x : K)
    (h : (alookup ((delitem s k).2).cache x).isSome) :
    (alookup s.cache x).isSome := by
  rw [delitem] at h
  revert h
  cases alookup s.cache k with
  | none => intro h; exact h
  | some v =>
      dsimp
      intro h
      exact aerase_isSome_mono _ _ _ h

theorem getCore_fst_empty (s : MemoryListingsCache K V) (k : K)
    (h : s.cache = []) : (getCore s k).1 = Except.error CErr.keyError := by
  unfold getCore
  dsimp
  have hc : (if hasMax s then qTouch s k else s).cache = [] := by
    split
    · rcases qTouch_cache_cases s k with hc | hc
      · rw [hc, h]
      · rw [hc, h]
        rfl
    · exact h
  rw [hc]
  rfl

theorem getitem_fst_empty (s : MemoryListingsCache K V) (k : K) (now : Int)
    (h : s.cache = []) : (getitem s k now).1 = Except.error CErr.keyError := by
  cases hE : s.expiry_time with
  | none =>
      rw [getitem_expiry_none s k now hE]
      exact getCore_fst_empty s k h
  | some T =>
      rw [getitem_expiry_some s k now T hE]
      split
      · rw [h]
        rfl
      · exact getCore_fst_empty s k h

theorem containsOp_fst_empty (s : MemoryListingsCache K V) (k : K)
    (now : Int) (h : s.cache = []) : (containsOp s k now).1 = false := by
  rw [containsOp_fst, getitem_fst_empty s k now h]

end MemoryListingsCache

/-! ### The timestamp store only ever grows relative to the value store -/

open MemoryListingsCache in
theorem applyOp_expiry {K V : Type} [DecidableEq K]
    (s : MemoryListingsCache K V) (op : Op K V) :
    (applyOp s op).expiry_time = s.expiry_time := by
  cases op with
  | set k v t => exact setitem_expiry s k v t
  | get k t => exact getitem_snd_expiry s k t
  | contains k t => rw [applyOp, containsOp_snd]; exact getitem_snd_expiry s k t
  | del k => exact delitem_snd_expiry s k
  | clear => rfl

open MemoryListingsCache in
theorem applyOp_max {K V : Type} [DecidableEq K]
    (s : MemoryListingsCache K V) (op : Op K V) :
    (applyOp s op).max_paths = s.max_paths := by
  cases op with
  | set k v t => exact setitem_max s k v t
  | get k t => exact getitem_snd_max s k t
  | contains k t => rw [applyOp, containsOp_snd]; exact getitem_snd_max s k t
  | del k => exact delitem_snd_max s k
  | clear => rfl

open MemoryListingsCache in
theorem applyOp_times_superset {K V : Type} [DecidableEq K]
    (s : MemoryListingsCache K V) (op : Op K V)
    (hE : s.expiry_time.isSome)
    (hInv : ∀ x, (alookup s.cache x).isSome → (alookup s.times x).isSome) :
    ∀ x, (alookup (applyOp s op).cache x).isSome →
      (alookup (applyOp s op).times x).isSome := by
  intro x hx
  cases op with
  | set k v t =>
      rw [applyOp, setitem_cache] at hx
      rw [applyOp, setitem_times_of_isSome s k v t hE]
      rw [alookup_ainsert_isSome] at hx
      rw [alookup_ainsert_isSome]
      rcases hx with hx | hx
      · exact Or.inl hx
      · exact Or.inr (hInv x (touch_cache_isSome s k x hx))
  | get k t =>
      rw [applyOp] at hx ⊢
      rw [getitem_snd_times]
      exact hInv x (getitem_snd_cache_isSome s k t x hx)
  | contains k t =>
      rw [applyOp, containsOp_snd] at hx ⊢
      rw [getitem_snd_times]
      exact hInv x (getitem_snd_cache_isSome s k t x hx)
  | del k =>
      rw [applyOp] at hx ⊢
      rw [delitem_snd_times]
      exact hInv x (delitem_snd_cache_isSome s k x hx)
  | clear =>
      rw [applyOp, clearOp] at hx
      simp at hx

open MemoryListingsCache in
theorem runOps_times_superset_aux {K V : Type} [DecidableEq K]
    (ops : List (Op K V)) (s : MemoryListingsCache K V)
    (hE : s.expiry_time.isSome)
    (hInv : ∀ x, (alookup s.cache x).isSome → (alookup s.times x).isSome) :
    ∀ x, (alookup (runOps s ops).cache x).isSome →
      (alookup (runOps s ops).times x).isSome := by
  induction ops generalizing s with
  | nil => exact hInv
  | cons op rest ih =>
      rw [runOps]
      exact ih (applyOp s op)
        (by rw [applyOp_expiry]; exact hE)
        (applyOp_times_superset s op hE hInv)

/-! ### Tracker invariants: at most `max_paths + 1` retrievable entries -/

namespace MemoryListingsCache

variable {K V : Type} [DecidableEq K]

theorem not_mem_lremove (l : List K) (k : K) : k ∉ lremove l k := by
  intro h
  rcases List.mem_filter.1 h with ⟨-, hdec⟩
  simp at hdec

theorem lremove_nodup (l : List K) (k : K) (h : l.Nodup) :
    (lremove l k).Nodup :=
  List.Nodup.filter _ h

theorem length_lremove_lt (l : List K) (k : K) (h : k ∈ l) :
    (lremove l k).length < l.length :=
  List.length_filter_lt_length_iff_exists.2 ⟨k, h, by simp⟩

/-- The structural invariant of a capacity-bounded memory cache:
the tracker has no duplicate keys and at most `m + 1` entries
(the `lru_cache(max_paths + 1)` capacity), and the value store's keys
are distinct. -/
def Inv (m : Nat) (s : MemoryListingsCache K V) : Prop :=
  s.max_paths = some m ∧ s.tracker.Nodup ∧ s.tracker.length ≤ m + 1 ∧
    (s.cache.map Prod.fst).Nodup

theorem mem_keys_iff (l : List (K × V)) (x : K) :
    x ∈ l.map Prod.fst ↔ (alookup l x).isSome := by
  induction l with
  | nil => simp
  | cons p t ih =>
      by_cases hp : p.1 = x
      · simp [hp]
      · simp only [List.map_cons, List.mem_cons, alookup_cons, hp, if_false]
        constructor
        · intro h
          rcases h with h | h
          · exact absurd h.symm hp
          · exact ih.1 h
        · intro h
          exact Or.inr (ih.2 h)

theorem aerase_keys_nodup (l : List (K × V)) (k : K)
    (h : (l.map Prod.fst).Nodup) : ((aerase l k).map Prod.fst).Nodup :=
  List.Nodup.sublist (List.Sublist.map _ (List.filter_sublist l)) h

theorem ainsert_keys (l : List (K × V)) (k : K) (v : V) :
    (ainsert l k v).map Prod.fst =
      (if (alookup l k).isSome then l.map Prod.fst
       else l.map Prod.fst ++ [k]) := by
  unfold ainsert
  split
  · rw [List.map_map]
    refine List.map_congr_left ?_
    intro p hp
    by_cases h : p.1 = k
    · simp [Function.comp, h]
    · simp [Function.comp, h]
  · rw [List.map_append]
    rfl

theorem ainsert_keys_nodup (l : List (K × V)) (k : K) (v : V)
    (h : (l.map Prod.fst).Nodup) : ((ainsert l k v).map Prod.fst).Nodup := by
  rw [ainsert_keys]
  split
  · exact h
  · rename_i hmiss
    have hk : k ∉ l.map Prod.fst := by
      rw [mem_keys_iff]
      exact hmiss
    simp [List.nodup_append, h, hk]

theorem qTouch_inv (s : MemoryListingsCache K V) (k : K) (m : Nat)
    (h : Inv m s) : Inv m (qTouch s k) := by
  obtain ⟨hm, hnd, hlen, hknd⟩ := h
  refine ⟨by rw [qTouch_max]; exact hm, ?_, ?_, ?_⟩
  · by_cases hk : k ∈ s.tracker
    · rw [qTouch_tracker_of_mem s k m hm hk]
      exact List.Nodup.cons (not_mem_lremove _ _) (lremove_nodup _ _ hnd)
    · rw [qTouch_tracker_of_not_mem s k m hm hk]
      split
      · exact List.Nodup.sublist (List.dropLast_sublist _)
          (List.Nodup.cons hk hnd)
      · exact List.Nodup.cons hk hnd
  · by_cases hk : k ∈ s.tracker
    · rw [qTouch_tracker_of_mem s k m hm hk]
      have := length_lremove_lt s.tracker k hk
      simp only [List.length_cons]
      omega
    · rw [qTouch_tracker_of_not_mem s k m hm hk]
      split
      · rename_i hgt
        have hdl : ((k :: s.tracker).dropLast).length =
            (k :: s.tracker).length - 1 := by
          rw [List.length_dropLast]
        simp only [List.length_cons] at hdl hgt ⊢
        omega
      · rename_i hle
        simp only [List.length_cons, gt_iff_lt, not_lt] at hle ⊢
        omega
  · rcases qTouch_cache_cases s k with hc | hc
    · rw [hc]; exact hknd
    · rw [hc]; exact aerase_keys_nodup _ _ hknd

theorem touch_inv (s : MemoryListingsCache K V) (k : K) (m : Nat)
    (h : Inv m s) : Inv m (if hasMax s then qTouch s k else s) := by
  split
  · exact qTouch_inv s k m h
  · exact h

theorem getCore_snd_inv (s : MemoryListingsCache K V) (k : K) (m : Nat)
    (h : Inv m s) : Inv m (getCore s k).2 := by
  rw [getCore_snd]
  exact touch_inv s k m h

theorem erased_inv (s : MemoryListingsCache K V) (k : K) (m : Nat)
    (h : Inv m s) :
    Inv m ({ s with cache := aerase s.cache k } : MemoryListingsCache K V) := by
  obtain ⟨hm, hnd, hlen, hknd⟩ := h
  exact ⟨hm, hnd, hlen, aerase_keys_nodup _ _ hknd⟩

theorem getitem_snd_inv (s : MemoryListingsCache K V) (k : K) (now : Int)
    (m : Nat) (h : Inv m s) : Inv m (getitem s k now).2 := by
  unfold getitem
  cases hE : s.expiry_time with
  | none => exact getCore_snd_inv s k m h
  | some T =>
      dsimp
      split
      · cases hc : alookup s.cache k with
        | none => exact h
        | some v =>
            dsimp
            exact getCore_snd_inv _ k m (erased_inv s k m h)
      · exact getCore_snd_inv s k m h

theorem setitem_inv (s : MemoryListingsCache K V) (k : K) (v : V) (now : Int)
    (m : Nat) (h : Inv m s) : Inv m (setitem s k v now) := by
  have htouch := touch_inv s k m h
  obtain ⟨hm, hnd, hlen, hknd⟩ := htouch
  refine ⟨?_, ?_, ?_, ?_⟩
  · rw [setitem_max]; exact h.1
  · rw [setitem_tracker]; exact hnd
  · rw [setitem_tracker]; exact hlen
  · rw [setitem_cache]; exact ainsert_keys_nodup _ k v hknd

theorem applyOp_inv (s : MemoryListingsCache K V) (op : Op K V) (m : Nat)
    (h : Inv m s) : Inv m (applyOp s op) := by
  cases op with
  | set k v t => exact setitem_inv s k v t m h
  | get k t => exact getitem_snd_inv s k t m h
  | contains k t =>
      rw [applyOp, containsOp_snd]
      exact getitem_snd_inv s k t m h
  | del k =>
      rw [applyOp, delitem]
      cases hc : alookup s.cache k with
      | none => exact h
      | some v => exact erased_inv s k m h
  | clear =>
      obtain ⟨hm, hnd, hlen, hknd⟩ := h
      exact ⟨hm, hnd, hlen, List.nodup_nil⟩

theorem runOps_inv (ops : List (Op K V)) (s : MemoryListingsCache K V)
    (m : Nat) (h : Inv m s) : Inv m (runOps s ops) := by
  induction ops generalizing s with
  | nil => exact h
  | cons op rest ih =>
      rw [runOps]
      exact ih (applyOp s op) (applyOp_inv s op m h)

theorem length_le_of_nodup_subset {A : Type} [DecidableEq A]
    (l1 l2 : List A) (h1 : l1.Nodup) (h2 : ∀ x ∈ l1, x ∈ l2) :
    l1.length ≤ l2.length := by
  rw [← List.toFinset_card_of_nodup h1]
  calc l1.toFinset.card
      ≤ l2.toFinset.card :=
        Finset.card_le_card
          (fun x hx => List.mem_toFinset.2 (h2 x (List.mem_toFinset.1 hx)))
    _ ≤ l2.length := List.toFinset_card_le l2

theorem retrievableCount_le_tracker (s : MemoryListingsCache K V) (now : Int)
    (hknd : (s.cache.map Prod.fst).Nodup) :
    retrievableCount s now ≤ s.tracker.length := by
  unfold retrievableCount
  set f := s.cache.filter
    (fun p => decide (p.1 ∈ s.tracker) && !isExpired s p.1 now) with hf
  have hsub : f.Sublist s.cache := List.filter_sublist _
  have hnd : (f.map Prod.fst).Nodup :=
    List.Nodup.sublist (List.Sublist.map _ hsub) hknd
  have hmem : ∀ x ∈ f.map Prod.fst, x ∈ s.tracker := by
    intro x hx
    rcases List.mem_map.1 hx with ⟨p, hp, hpx⟩
    rcases List.mem_filter.1 hp with ⟨-, hpred⟩
    rcases Bool.and_eq_true_iff.mp hpred with ⟨hin, -⟩
    rw [← hpx]
    exact of_decide_eq_true hin
  have := length_le_of_nodup_subset (f.map Prod.fst) s.tracker hnd hmem
  rwa [List.length_map] at this

end MemoryListingsCache

/-! ### State after inserting `m` fresh distinct keys -/

/-- The operation sequence `set(0,0), set(1,1), …, set(m-1,m-1)`, all at
time 0: `m` distinct keys inserted in order with no intervening reads. -/
def setsRange (m : Nat) : List (Op Nat Nat) :=
  (List.range m).map (fun i => Op.set i i 0)

theorem runOps_append {K V : Type} [DecidableEq K]
    (s : MemoryListingsCache K V) (l1 l2 : List (Op K V)) :
    runOps s (l1 ++ l2) = runOps (runOps s l1) l2 := by
  induction l1 generalizing s with
  | nil => rfl
  | cons op t ih =>
      rw [List.cons_append, runOps, runOps, ih]

theorem alookup_mapDiag (l : List Nat) (j : Nat) :
    alookup (l.map (fun i => (i, i))) j = if j ∈ l then some j else none := by
  induction l with
  | nil => simp
  | cons a t ih =>
      by_cases h : a = j
      · subst h
        simp
      · simp only [List.map_cons, alookup_cons, h, if_false, ih,
          List.mem_cons]
        have : ¬ j = a := fun hh => h hh.symm
        simp [this]

theorem mem_drop_range (d m j : Nat) :
    j ∈ (List.range m).drop d ↔ d ≤ j ∧ j < m := by
  induction m with
  | zero => simp
  | succ m ih =>
      rw [List.range_succ]
      by_cases hd : d ≤ m
      · rw [List.drop_append_of_le_length (by rw [List.length_range]; exact hd)]
        simp only [List.mem_append, List.mem_singleton, ih]
        omega
      · rw [List.drop_eq_nil_of_le
          (by rw [List.length_append, List.length_range]; simp; omega)]
        simp only [List.not_mem_nil, false_iff]
        omega

theorem dropLast_cons_reverse {A : Type} (x : A) (l : List A) (h : l ≠ []) :
    (x :: l.reverse).dropLast = x :: l.tail.reverse := by
  cases l with
  | nil => exact absurd rfl h
  | cons a t =>
      rw [List.reverse_cons]
      rw [show x :: (t.reverse ++ [a]) = (x :: t.reverse) ++ [a] from rfl]
      rw [List.dropLast_concat]
      rfl

/-- One tracker step of a fresh insert: pushing key `m` on the tracker
reached after inserting `0, …, m-1` (capacity `N + 1`) yields the tracker
for `0, …, m`. -/
theorem tracker_step (N m : Nat) :
    (if ((m : Nat) :: ((List.range m).drop (m - (N + 1))).reverse).length >
        N + 1
     then (m :: ((List.range m).drop (m - (N + 1))).reverse).dropLast
     else m :: ((List.range m).drop (m - (N + 1))).reverse) =
    ((List.range (m + 1)).drop ((m + 1) - (N + 1))).reverse := by
  by_cases hm : m + 1 ≤ N + 1
  · have h0 : m - (N + 1) = 0 := by omega
    have h1 : (m + 1) - (N + 1) = 0 := by omega
    rw [h0, h1, List.drop_zero, List.drop_zero]
    rw [if_neg (by
      rw [List.length_cons, List.length_reverse, List.length_range]
      omega)]
    rw [List.range_succ, List.reverse_append]
    rfl
  · have hge : N + 1 ≤ m := by omega
    have hlenT : (((List.range m).drop (m - (N + 1))).reverse).length =
        N + 1 := by
      rw [List.length_reverse, List.length_drop, List.length_range]
      omega
    rw [if_pos (by rw [List.length_cons, hlenT]; omega)]
    have hne : (List.range m).drop (m - (N + 1)) ≠ [] := by
      apply List.ne_nil_of_length_pos
      rw [List.length_drop, List.length_range]
      omega
    rw [dropLast_cons_reverse m _ hne, List.tail_drop]
    have h2 : m - (N + 1) + 1 = m - N := by omega
    have h3 : (m + 1) - (N + 1) = m - N := by omega
    rw [h2, h3, List.range_succ,
      List.drop_append_of_le_length (by rw [List.length_range]; omega),
      List.reverse_append]
    rfl

open MemoryListingsCache in
/-- Inserting the fresh key `m` into the state reached after inserting
`0, …, m-1` (no expiry, `max_paths = N ≥ 1`): the pair `(m, m)` is
appended to the value store and the tracker advances one step. -/
theorem setitem_fresh_step (N m : Nat) (hN : 1 ≤ N) :
    MemoryListingsCache.setitem
      ({ cache := (List.range m).map (fun i => (i, i)), times := [],
         expiry_time := none, max_paths := some N,
         tracker := ((List.range m).drop (m - (N + 1))).reverse } :
        MemoryListingsCache Nat Nat) m m 0 =
      { cache := (List.range (m + 1)).map (fun i => (i, i)), times := [],
        expiry_time := none, max_paths := some N,
        tracker := ((List.range (m + 1)).drop ((m + 1) - (N + 1))).reverse }
    := by
  have hmem : m ∉ (((List.range m).drop (m - (N + 1))).reverse) := by
    rw [List.mem_reverse, mem_drop_range]
    omega
  have hnolook : alookup ((List.range m).map (fun i => (i, i))) m = none := by
    rw [alookup_mapDiag, if_neg (by rw [List.mem_range]; omega)]
  have hmax : hasMax
      ({ cache := (List.range m).map (fun i => (i, i)), times := [],
         expiry_time := none, max_paths := some N,
         tracker := ((List.range m).drop (m - (N + 1))).reverse } :
        MemoryListingsCache Nat Nat) = true :=
    hasMax_of_some _ N rfl (by omega)
  apply MemoryListingsCache.ext
  · rw [setitem_cache, if_pos hmax,
      qTouch_cache_of_not_mem _ m N rfl hmem]
    show ainsert (aerase ((List.range m).map (fun i => (i, i))) m) m m = _
    rw [aerase_of_not_mem _ _ hnolook]
    rw [ainsert, if_neg (by rw [hnolook]; simp)]
    rw [List.range_succ, List.map_append]
    rfl
  · rw [setitem_times_of_none _ m m 0 rfl]
  · rw [setitem_expiry]
  · rw [setitem_max]
  · rw [setitem_tracker, if_pos hmax,
      qTouch_tracker_of_not_mem _ m N rfl hmem]
    show (if ((m : Nat) ::
        ((List.range m).drop (m - (N + 1))).reverse).length > N + 1
      then (m :: ((List.range m).drop (m - (N + 1))).reverse).dropLast
      else m :: ((List.range m).drop (m - (N + 1))).reverse) = _
    rw [tracker_step N m]

open MemoryListingsCache in
/-- The full memory-backend state after inserting `m` distinct fresh keys
`0, …, m-1` in order (no expiry configured, `max_paths = N ≥ 1`): every
inserted pair is in the value store, no timestamps are recorded, and the
tracker holds the last `min m (N+1)` keys, most recent first. -/
theorem runOps_setsRange (N : Nat) (hN : 1 ≤ N) (m : Nat) :
    runOps (MemoryListingsCache.init none (some N) :
        MemoryListingsCache Nat Nat) (setsRange m) =
      { cache := (List.range m).map (fun i => (i, i)),
        times := [],
        expiry_time := none,
        max_paths := some N,
        tracker := ((List.range m).drop (m - (N + 1))).reverse } := by
  induction m with
  | zero =>
      simp [setsRange, runOps, MemoryListingsCache.init]
  | succ m ih =>
      have hsr : setsRange (m + 1) = setsRange m ++ [Op.set m m 0] := by
        unfold setsRange
        rw [List.range_succ, List.map_append]
        rfl
      rw [hsr, runOps_append, ih, runOps, runOps, applyOp,
        setitem_fresh_step N m hN]

/-! ## Claim theorems -/

/-- Claim C1, counterexample: with `max_paths = 1`, after `set(0, ·)` and
`set(1, ·)` the value store holds 2 live (non-expired) entries, exceeding
the claimed bound `N = 1`; after a third distinct set it holds 3, so no
bound linear in the claimed form holds for plain value-store entries —
the tracker capacity is `max_paths + 1` and tracker overflow drops keys
silently, leaving their entries in the value store until they are next
touched. -/
theorem claimC1_counterexample_live_exceeds_bound :
    MemoryListingsCache.liveEntryCount
      (runOps (MemoryListingsCache.init none (some 1) :
        MemoryListingsCache Nat Nat) [Op.set 0 0 0, Op.set 1 1 0]) 0 = 2 ∧
    MemoryListingsCache.liveEntryCount
      (runOps (MemoryListingsCache.init none (some 1) :
        MemoryListingsCache Nat Nat)
        [Op.set 0 0 0, Op.set 1 1 0, Op.set 2 2 0]) 0 = 3 :=
  ⟨rfl, rfl⟩

/-- Claim C1, amended: for the memory backend with `max_paths = N`, after
every sequence of set/get/contains/delete/clear operations, the number of
entries that are simultaneously in the value store, in the recency
tracker, and non-expired — exactly the entries a later access can still
retrieve — never exceeds `N + 1` (the `lru_cache(max_paths + 1)`
capacity).  A set that overflows the tracker evicts the
least-recently-touched key from the tracker only; that key's value stays
in the value store until its next touch removes it lazily. -/
theorem claimC1_amended_retrievable_bound {K V : Type} [DecidableEq K]
    (e : Option Int) (N : Nat) (ops : List (Op K V)) (now : Int) :
    MemoryListingsCache.retrievableCount
      (runOps (MemoryListingsCache.init e (some N)) ops) now ≤ N + 1 := by
  have hInv := MemoryListingsCache.runOps_inv ops
    (MemoryListingsCache.init e (some N)) N
    ⟨rfl, List.nodup_nil, Nat.zero_le _, List.nodup_nil⟩
  obtain ⟨hm, hnd, hlen, hknd⟩ := hInv
  exact le_trans
    (MemoryListingsCache.retrievableCount_le_tracker _ now hknd) hlen

/-- Witness for the amended C1: three distinct inserts at `max_paths = 1`
keep the retrievable-entry count within 2. -/
theorem claimC1_amended_retrievable_bound_witness :
    MemoryListingsCache.retrievableCount
      (runOps (MemoryListingsCache.init none (some 1) :
        MemoryListingsCache Nat Nat)
        [Op.set 0 0 0, Op.set 1 1 0, Op.set 2 2 0]) 0 ≤ 2 :=
  claimC1_amended_retrievable_bound none 1 [Op.set 0 0 0, Op.set 1 1 0,
    Op.set 2 2 0] 0

/-- Claim C2, counterexample: with `max_paths = N = 1`, after inserting
`N + 1 = 2` distinct keys in order with no intervening reads, the first
inserted key is NOT evicted: `contains(0)` returns true, because the
recency tracker's capacity is `max_paths + 1 = 2` and has not yet
overflowed. -/
theorem claimC2_counterexample_first_key_survives_N_plus_1 :
    ((runOps (MemoryListingsCache.init none (some 1) :
        MemoryListingsCache Nat Nat) (setsRange 2)).containsOp 0 0).1 =
      true := rfl

open MemoryListingsCache in
/-- Claim C2, amended: with `max_paths = N`, it takes `N + 2` distinct
inserts (one more than claimed, because the tracker holds
`max_paths + 1` keys) before the first inserted key is evicted:
`contains(firstKey)` on the resulting state returns false, while
`contains` of each of the other `N + 1` keys on that state returns
true. -/
theorem claimC2_amended_first_evicted_at_N_plus_2 (N : Nat) (hN : 1 ≤ N) :
    ((runOps (MemoryListingsCache.init none (some N) :
        MemoryListingsCache Nat Nat) (setsRange (N + 2))).containsOp 0 0).1 =
      false ∧
    (∀ j, 1 ≤ j → j ≤ N + 1 →
      ((runOps (MemoryListingsCache.init none (some N) :
          MemoryListingsCache Nat Nat) (setsRange (N + 2))).containsOp
        j 0).1 = true) := by
  rw [runOps_setsRange N hN (N + 2)]
  constructor
  · rw [containsOp_fst, getitem_expiry_none _ _ _ rfl]
    rw [getCore_fst_of_not_mem _ 0 N rfl (hasMax_of_some _ N rfl (by omega))
      (by rw [List.mem_reverse, mem_drop_range]; omega)]
  · intro j h1 h2
    rw [containsOp_fst, getitem_expiry_none _ _ _ rfl]
    rw [getCore_fst_of_tracker _ j (fun _ => by
      rw [List.mem_reverse, mem_drop_range]
      omega)]
    rw [show alookup ((List.range (N + 2)).map (fun i => (i, i))) j =
        some j by
      rw [alookup_mapDiag, if_pos (List.mem_range.2 (by omega))]]

/-- Witness for the amended C2 at `N = 1`: after three inserts key 0 is
gone and key 1 is still present. -/
theorem claimC2_amended_first_evicted_at_N_plus_2_witness :
    ((runOps (MemoryListingsCache.init none (some 1) :
        MemoryListingsCache Nat Nat) (setsRange 3)).containsOp 0 0).1 =
      false ∧
    ((runOps (MemoryListingsCache.init none (some 1) :
        MemoryListingsCache Nat Nat) (setsRange 3)).containsOp 1 0).1 =
      true :=
  ⟨(claimC2_amended_first_evicted_at_N_plus_2 1 le_rfl).1,
   (claimC2_amended_first_evicted_at_N_plus_2 1 le_rfl).2 1 le_rfl
     (by decide)⟩

/-- Claim C3, counterexample: with `max_paths = 2`, after
`set(a), set(b), get(a), set(c)` the key `b` is NOT evicted —
`contains(b)` returns true — because the tracker capacity is
`max_paths + 1 = 3` and the three keys all fit.  (Keys: `a = 0`,
`b = 1`, `c = 2`.) -/
theorem claimC3_counterexample_b_survives_at_maxpaths_2 :
    ((runOps (MemoryListingsCache.init none (some 2) :
        MemoryListingsCache Nat Nat)
        [Op.set 0 0 0, Op.set 1 1 0, Op.get 0 0, Op.set 2 2 0]).containsOp
      1 0).1 = true := rfl

/-- Claim C3, amended: read promotion is observable one capacity step
earlier: with `max_paths = 1` (tracker capacity 2), after
`set(a), set(b), get(a), set(c)` the key `b` is evicted while `a` and
`c` are still present — the read of `a` promoted it so `b`, not `a`,
was the least-recently-touched key dropped by the insert of `c`.
(`contains` checks are each evaluated on the state after the four
operations.) -/
theorem claimC3_amended_read_promotes_at_maxpaths_1 :
    ((runOps (MemoryListingsCache.init none (some 1) :
        MemoryListingsCache Nat Nat)
        [Op.set 0 0 0, Op.set 1 1 0, Op.get 0 0, Op.set 2 2 0]).containsOp
      1 0).1 = false ∧
    ((runOps (MemoryListingsCache.init none (some 1) :
        MemoryListingsCache Nat Nat)
        [Op.set 0 0 0, Op.set 1 1 0, Op.get 0 0, Op.set 2 2 0]).containsOp
      0 0).1 = true ∧
    ((runOps (MemoryListingsCache.init none (some 1) :
        MemoryListingsCache Nat Nat)
        [Op.set 0 0 0, Op.set 1 1 0, Op.get 0 0, Op.set 2 2 0]).containsOp
      2 0).1 = true :=
  ⟨rfl, rfl, rfl⟩

open MemoryListingsCache in
/-- Claim C10: with `max_paths = N`, after inserting `N + 2` distinct keys,
the first key's value is still stored in the value store and is not
expired, yet `get` on it fails with `KeyError` AND removes the stored
value as a side effect — the read silently destroys and misses a live
entry whose key has fallen out of the recency tracker (the tracker miss
runs `self._cache.pop(key, None)` before the final lookup). -/
theorem claimC10_destructive_read_of_live_entry (N : Nat) (hN : 1 ≤ N) :
    alookup (runOps (MemoryListingsCache.init none (some N) :
        MemoryListingsCache Nat Nat) (setsRange (N + 2))).cache 0 =
      some 0 ∧
    MemoryListingsCache.isExpired
      (runOps (MemoryListingsCache.init none (some N) :
        MemoryListingsCache Nat Nat) (setsRange (N + 2))) 0 0 = false ∧
    ((runOps (MemoryListingsCache.init none (some N) :
        MemoryListingsCache Nat Nat) (setsRange (N + 2))).getitem 0 0).1 =
      Except.error CErr.keyError ∧
    alookup (((runOps (MemoryListingsCache.init none (some N) :
        MemoryListingsCache Nat Nat) (setsRange (N + 2))).getitem
      0 0).2).cache 0 = none := by
  rw [runOps_setsRange N hN (N + 2)]
  have hmax := hasMax_of_some
    ({ cache := (List.range (N + 2)).map (fun i => (i, i)),
       times := [],
       expiry_time := none,
       max_paths := some N,
       tracker := ((List.range (N + 2)).drop ((N + 2) - (N + 1))).reverse } :
      MemoryListingsCache Nat Nat) N rfl (by omega)
  have hnm : (0 : Nat) ∉
      ((List.range (N + 2)).drop ((N + 2) - (N + 1))).reverse := by
    rw [List.mem_reverse, mem_drop_range]
    omega
  refine ⟨?_, rfl, ?_, ?_⟩
  · rw [alookup_mapDiag, if_pos (List.mem_range.2 (by omega))]
  · rw [getitem_expiry_none _ _ _ rfl,
      getCore_fst_of_not_mem _ 0 N rfl hmax hnm]
  · rw [getitem_expiry_none _ _ _ rfl,
      getCore_snd_cache_of_not_mem _ 0 N rfl hmax hnm,
      alookup_aerase_self]

/-- Witness for C10 at `N = 1`: after `set(0), set(1), set(2)`, key 0's
value is still stored, not expired, and `get(0)` both fails and removes
it. -/
theorem claimC10_destructive_read_of_live_entry_witness :
    alookup (runOps (MemoryListingsCache.init none (some 1) :
        MemoryListingsCache Nat Nat) (setsRange 3)).cache 0 = some 0 ∧
    MemoryListingsCache.isExpired
      (runOps (MemoryListingsCache.init none (some 1) :
        MemoryListingsCache Nat Nat) (setsRange 3)) 0 0 = false ∧
    ((runOps (MemoryListingsCache.init none (some 1) :
        MemoryListingsCache Nat Nat) (setsRange 3)).getitem 0 0).1 =
      Except.error CErr.keyError ∧
    alookup (((runOps (MemoryListingsCache.init none (some 1) :
        MemoryListingsCache Nat Nat) (setsRange 3)).getitem 0 0).2).cache
      0 = none :=
  claimC10_destructive_read_of_live_entry 1 le_rfl

/-- Claim C7, counterexample: with expiry 10, after `set(0, 5)` at time 0,
the `get(0)` at time 11 does trigger expiry removal of the value (the
value store ends empty and the get raises `KeyError`), but the key's
timestamp is NOT deleted — `_times` still holds `(0, 0)`.  Likewise
`clear()` empties only the value store and leaves the timestamp behind.
This refutes the claim that every key in the timestamp store is also in
the value store after every operation. -/
theorem claimC7_counterexample_timestamps_linger :
    ((((MemoryListingsCache.init (some 10) none :
        MemoryListingsCache Nat Nat).setitem 0 5 0).getitem 0 11).1 =
      Except.error CErr.keyError) ∧
    ((((MemoryListingsCache.init (some 10) none :
        MemoryListingsCache Nat Nat).setitem 0 5 0).getitem 0 11).2.cache =
      []) ∧
    ((((MemoryListingsCache.init (some 10) none :
        MemoryListingsCache Nat Nat).setitem 0 5 0).getitem 0 11).2.times =
      [(0, 0)]) ∧
    (((MemoryListingsCache.init (some 10) none :
        MemoryListingsCache Nat Nat).setitem 0 5 0).clearOp.cache = []) ∧
    (((MemoryListingsCache.init (some 10) none :
        MemoryListingsCache Nat Nat).setitem 0 5 0).clearOp.times = [(0, 0)]) :=
  ⟨rfl, rfl, rfl, rfl, rfl⟩

/-- Claim C7, amended: expiry-triggered removal during `get` deletes only
the value and `clear` empties only the value store, so timestamps linger;
the containment that does hold is the reverse one: when an expiry
duration is configured, every key present in the value store is also
present in the timestamp store, after every sequence of
set/get/contains/delete/clear operations. -/
theorem claimC7_amended_cache_keys_have_times {K V : Type} [DecidableEq K]
    (T : Int) (mp : Option Nat) (ops : List (Op K V)) (x : K)
    (hx : (alookup (runOps (MemoryListingsCache.init (some T) mp) ops).cache
      x).isSome) :
    (alookup (runOps (MemoryListingsCache.init (some T) mp) ops).times
      x).isSome :=
  runOps_times_superset_aux ops _ (by simp [MemoryListingsCache.init])
    (fun y hy => by simp [MemoryListingsCache.init] at hy) x hx

/-- Witness for the amended C7 at a concrete run. -/
theorem claimC7_amended_cache_keys_have_times_witness :
    ((alookup (runOps (MemoryListingsCache.init (some 10) none :
        MemoryListingsCache Nat Nat) [Op.set 0 5 0]).cache 0).isSome = true) ∧
    ((alookup (runOps (MemoryListingsCache.init (some 10) none :
        MemoryListingsCache Nat Nat) [Op.set 0 5 0]).times 0).isSome = true) :=
  ⟨rfl, claimC7_amended_cache_keys_have_times 10 none [Op.set 0 5 0] 0 rfl⟩

open MemoryListingsCache in
/-- Claim C4: for the memory backend with expiry duration `T` configured,
after `set(k, v)` at time `t0`, a `get(k)` at any time strictly after
`t0 + T` fails with NotFound (`KeyError`), and at any time strictly
before `t0 + T` returns `v`.  Holds from any prior cache state. -/
theorem claimC4_memory_expiry_boundary {K V : Type} [DecidableEq K]
    (s : MemoryListingsCache K V) (k : K) (v : V) (t0 t1 T : Int)
    (hT : s.expiry_time = some T) :
    (t0 + T < t1 →
      ((s.setitem k v t0).getitem k t1).1 = Except.error CErr.keyError) ∧
    (t1 < t0 + T →
      ((s.setitem k v t0).getitem k t1).1 = Except.ok v) := by
  have hTe : (s.setitem k v t0).expiry_time = some T := by
    rw [setitem_expiry]; exact hT
  have htimes : alookup (s.setitem k v t0).times k = some t0 := by
    rw [setitem_times_of_isSome s k v t0 (by rw [hT]; rfl)]
    exact alookup_ainsert_self _ _ _
  have hcache : alookup (s.setitem k v t0).cache k = some v := by
    rw [setitem_cache]
    exact alookup_ainsert_self _ _ _
  have htr : hasMax (s.setitem k v t0) = true → k ∈ (s.setitem k v t0).tracker := by
    intro hx
    obtain ⟨m, hm, hmne⟩ := hasMax_exists _ hx
    have hms : s.max_paths = some m := by rw [← setitem_max s k v t0]; exact hm
    exact mem_tracker_setitem s k v t0 m hms hmne
  constructor
  · intro hlt
    rw [getitem_expiry_some _ k t1 T hTe, htimes]
    have hcond : (some t0).getD 0 - t1 < -T := by
      simp only [Option.getD_some]; omega
    rw [if_pos hcond, hcache]
    rw [getCore_fst_of_tracker
      ({ s.setitem k v t0 with cache := aerase (s.setitem k v t0).cache k })
      k (fun hx => htr hx)]
    have herase : alookup ({ s.setitem k v t0 with
        cache := aerase (s.setitem k v t0).cache k } :
          MemoryListingsCache K V).cache k = none := by
      dsimp
      exact alookup_aerase_self _ _
    rw [herase]
  · intro hlt
    rw [getitem_expiry_some _ k t1 T hTe, htimes]
    have hcond : ¬ ((some t0).getD 0 - t1 < -T) := by
      simp only [Option.getD_some]; omega
    rw [if_neg hcond]
    rw [getCore_fst_of_tracker _ k htr, hcache]

/-- Witness for C4: with expiry duration 10, a value set at time 0 is
still returned at time 9 and gone (KeyError) at time 11. -/
theorem claimC4_memory_expiry_boundary_witness :
    (((MemoryListingsCache.init (some 10) (some 1) :
        MemoryListingsCache Nat Nat).setitem 0 7 0).getitem 0 11).1 =
      Except.error CErr.keyError ∧
    (((MemoryListingsCache.init (some 10) (some 1) :
        MemoryListingsCache Nat Nat).setitem 0 7 0).getitem 0 9).1 =
      Except.ok 7 :=
  ⟨(claimC4_memory_expiry_boundary _ 0 7 0 11 10 rfl).1 (by decide),
   (claimC4_memory_expiry_boundary _ 0 7 0 9 10 rfl).2 (by decide)⟩

/-- Claim C8: for the disabled backend, `get` always fails with NotFound
(`KeyError`), `set` and `clear` change nothing, `delete` never fails
(it returns the unchanged state, with no error path in its type),
`contains` is always false, iteration yields no keys, and length is 0. -/
theorem claimC8_disabled_contract (K V : Type) (s : DisabledListingsCache)
    (k : K) (v : V) :
    DisabledListingsCache.getitem (V := V) s k = Except.error CErr.keyError ∧
    s.setitem k v = s ∧
    s.delitem k = s ∧
    DisabledListingsCache.containsOp s k = false ∧
    s.clearOp = s ∧
    DisabledListingsCache.iterOp (K := K) s = [] ∧
    DisabledListingsCache.lenOp s = 0 :=
  ⟨rfl, rfl, rfl, rfl, rfl, rfl, rfl⟩

/-- Witness for C8 at a concrete key and value. -/
theorem claimC8_disabled_contract_witness :
    DisabledListingsCache.getitem (V := List Nat) (DisabledListingsCache.init)
        ("x") = Except.error CErr.keyError ∧
    (DisabledListingsCache.init).setitem ("x") [1, 2, 3] =
        DisabledListingsCache.init ∧
    (DisabledListingsCache.init).delitem ("x") = DisabledListingsCache.init ∧
    DisabledListingsCache.containsOp (DisabledListingsCache.init) ("x") = false ∧
    DisabledListingsCache.init.clearOp = DisabledListingsCache.init ∧
    DisabledListingsCache.iterOp (K := String) DisabledListingsCache.init = [] ∧
    DisabledListingsCache.lenOp DisabledListingsCache.init = 0 :=
  claimC8_disabled_contract String (List Nat) (DisabledListingsCache.init)
    ("x") [1, 2, 3]

/-- Claim C9: the factory maps each recognized mode to the corresponding
backend constructor applied to the given configuration, and fails for a
value that is not a member of the `CacheType` enum — the `cache_map`
dict lookup raises `KeyError`, the construction-time failure the spec
calls ConfigurationError. -/
theorem claimC9_factory_dispatch (e : Option Int) (kw : FactoryKwargs)
    (u : List String) :
    create_listings_cache (.member .DISABLED) e kw u =
        .ok (.disabled DisabledListingsCache.init) ∧
    create_listings_cache (.member .MEMORY) e kw u =
        .ok (.memory (MemoryListingsCache.init e kw.max_paths)) ∧
    create_listings_cache (.member .FILE) e kw u =
        .ok (.file (FileListingsCache.init e kw.directory u)) ∧
    (∀ t : Nat, create_listings_cache (.nonMember t) e kw u =
        .error CErr.keyError) :=
  ⟨rfl, rfl, rfl, fun _ => rfl⟩

/-- Witness for C9 at a concrete configuration. -/
theorem claimC9_factory_dispatch_witness :
    create_listings_cache (.member .MEMORY) (some 3) ⟨some 2, none⟩ [] =
        .ok (.memory (MemoryListingsCache.init (some 3) (some 2))) ∧
    create_listings_cache (.nonMember 17) (some 3) ⟨some 2, none⟩ [] =
        .error CErr.keyError :=
  ⟨(claimC9_factory_dispatch (some 3) ⟨some 2, none⟩ []).2.1,
   (claimC9_factory_dispatch (some 3) ⟨some 2, none⟩ []).2.2.2 17⟩

/-- Claim C5, counterexample: for the file backend, reconstruction from
`__reduce__`'s configuration does NOT yield the same storage directory:
`__init__` appends `"dircache" / str(expiry_time)` to the directory it
is given, and `__reduce__` saves the already-suffixed directory, so the
reconstructed cache points at
`<dir>/dircache/<T>/dircache/<T>` instead of `<dir>/dircache/<T>`. -/
theorem claimC5_counterexample_file_directory_double_suffix :
    (FileListingsCache.init (some 5) (some ["d"]) []).directory =
      ["d", "dircache", "5"] ∧
    ((FileListingsCache.init (some 5) (some ["d"]) []).reconstruct
      []).directory = ["d", "dircache", "5", "dircache", "5"] ∧
    ((FileListingsCache.init (some 5) (some ["d"]) []).reconstruct
      []).directory ≠ (FileListingsCache.init (some 5) (some ["d"])
      []).directory :=
  ⟨rfl, rfl, by decide⟩

open MemoryListingsCache in
/-- Claim C5, amended: the disabled and memory backends reconstruct to an
equivalently-configured empty cache (same `__reduce__` configuration,
length 0, no key contained).  The file backend keeps the expiry duration
but its reconstructed storage directory is the original's with
`dircache/str(expiry_time)` appended AGAIN — a different, deeper
directory — and, the durable store at that fresh directory being empty,
the reconstructed cache starts empty rather than sharing the original's
persisted contents. -/
theorem claimC5_amended_reconstruction (s : MemoryListingsCache Nat Nat)
    (f : FileListingsCache) (u : List String) (env : DiskEnv)
    (hfresh : env (f.reconstruct u).directory = []) :
    ((MemoryListingsCache.init s.reduceConfig.1 s.reduceConfig.2 :
        MemoryListingsCache Nat Nat).reduceConfig = s.reduceConfig ∧
      MemoryListingsCache.lenOp (MemoryListingsCache.init s.reduceConfig.1
        s.reduceConfig.2 : MemoryListingsCache Nat Nat) = 0 ∧
      ∀ (k : Nat) (now : Int),
        ((MemoryListingsCache.init s.reduceConfig.1 s.reduceConfig.2 :
          MemoryListingsCache Nat Nat).containsOp k now).1 = false) ∧
    (DisabledListingsCache.lenOp DisabledListingsCache.init = 0 ∧
      ∀ k : String, DisabledListingsCache.containsOp
        DisabledListingsCache.init k = false) ∧
    ((f.reconstruct u).expiry_time = f.expiry_time ∧
      (f.reconstruct u).directory =
        f.directory ++ ["dircache", pyStrOptInt f.expiry_time] ∧
      (f.reconstruct u).directory ≠ f.directory ∧
      FileListingsCache.lenOp env (f.reconstruct u) = 0 ∧
      ∀ k, FileListingsCache.containsOp env (f.reconstruct u) k = false) := by
  refine ⟨⟨rfl, rfl, fun k now => containsOp_fst_empty _ k now rfl⟩,
    ⟨rfl, fun k => rfl⟩, rfl, rfl, ?_, ?_, ?_⟩
  · intro h
    have hnil := List.append_right_eq_self.1 h
    simp at hnil
  · unfold FileListingsCache.lenOp
    rw [hfresh]
    rfl
  · intro k
    unfold FileListingsCache.containsOp
    rw [hfresh]
    rfl

open MemoryListingsCache in
/-- Witness for the amended C5 at a concrete configuration: a memory
cache configured `(expiry 3, max_paths 2)` and a file cache at
directory `d` with expiry 5, with a durable-store environment that is
empty at the reconstructed directory. -/
theorem claimC5_amended_reconstruction_witness :
    ((MemoryListingsCache.init
        (MemoryListingsCache.init (some 3) (some 2) :
          MemoryListingsCache Nat Nat).reduceConfig.1
        (MemoryListingsCache.init (some 3) (some 2) :
          MemoryListingsCache Nat Nat).reduceConfig.2 :
        MemoryListingsCache Nat Nat).reduceConfig =
      (MemoryListingsCache.init (some 3) (some 2) :
        MemoryListingsCache Nat Nat).reduceConfig) ∧
    (((FileListingsCache.init (some 5) (some ["d"]) []).reconstruct
        []).directory ≠
      (FileListingsCache.init (some 5) (some ["d"]) []).directory) ∧
    (FileListingsCache.lenOp (fun _ => [])
      ((FileListingsCache.init (some 5) (some ["d"]) []).reconstruct []) =
      0) := by
  have h := claimC5_amended_reconstruction
    (MemoryListingsCache.init (some 3) (some 2))
    (FileListingsCache.init (some 5) (some ["d"]) []) [] (fun _ => []) rfl
  exact ⟨h.1.1, h.2.2.2.2.1, h.2.2.2.2.2.1⟩

/-- Claim C6, code bug: for the persistent backend, `__getitem__` does NOT
fail with NotFound when the key is absent or already expired in the
durable store — `diskcache.Cache.get` returns its default `None` instead
of raising, and the source returns that `None` as a normal value
(`Except.ok none`), violating the spec's contract and the `KeyError`
behaviour of the class's own `MutableMapping` base and of the other two
backends. -/
theorem claimC6_codebug_file_get_returns_none (env : DiskEnv)
    (s : FileListingsCache) (k : String)
    (h : alookup (env s.directory) k = none) :
    FileListingsCache.getitem env s k = Except.ok none := by
  unfold FileListingsCache.getitem
  rw [h]

/-- Witness for C6: reading any key from a file cache over an empty
durable store succeeds with `None` instead of raising `KeyError`. -/
theorem claimC6_codebug_file_get_returns_none_witness :
    FileListingsCache.getitem (fun _ => [])
      (FileListingsCache.init (some 5) (some ["d"]) []) "k" =
      Except.ok none :=
  claimC6_codebug_file_get_returns_none (fun _ => [])
    (FileListingsCache.init (some 5) (some ["d"]) []) "k" rfl

end Dircache
